import Mathlib

/-!
# Verification of `scripts/build_thumbbar_icons.py`

A shallow embedding of the thumbnail-toolbar icon build pipeline. The script
reads SVG sources `<input>/<variant>/<name>.svg` for the four fixed icon names,
renders each at the four fixed sizes through the external `resvg-py`
rasterizer, and packs the renders into `<output>/<variant>/<name>.ico` via
Pillow. The embedding models the filesystem and the two external libraries as
oracles, and records every observable side effect (directory check, mkdir,
file check, file read, render invocation, icon write) in an event trace, so
that properties about effect ordering, exit codes and produced files can be
stated and proved.
-/

namespace BuildThumbbarIcons

/-- A filesystem path, as a list of segments. -/
abbrev Path := List String

/-- Render a path the way diagnostics do. -/
def pathToString (p : Path) : String := String.intercalate "/" p

/-- An in-memory decoded pixel image (models a PIL `Image`): its pixel
dimensions and its pixel `mode` string (`"RGBA"` means an alpha channel is
present). -/
structure PILImage where
  width : Nat
  height : Nat
  mode : String
deriving Repr, DecidableEq

/-- `Image.convert("RGBA")`: keeps the pixel dimensions, sets the mode. -/
def convertRGBA (img : PILImage) : PILImage := { img with mode := "RGBA" }

/-- The fixed, closed icon name list `ICON_NAMES` of the script. -/
def ICON_NAMES : List String := ["previous", "play", "pause", "next"]

/-- The fixed, closed target size list `ICON_SIZES` of the script. -/
def ICON_SIZES : List (Nat × Nat) := [(16, 16), (20, 20), (24, 24), (32, 32)]

/-- The observable side effects of one run, in order of occurrence.
`checkDir`/`checkFile` record existence checks with their outcome, `mkdirP`
records `Path.mkdir(parents=True, exist_ok=True)`, `readFile` a source read,
`render` one invocation of the external rasterizer on given SVG text at a
given size, and `writeIco` one successfully written icon container file with
its frames and declared size directory. -/
inductive Event where
  | checkDir (p : Path) (found : Bool)
  | mkdirP (p : Path)
  | checkFile (p : Path) (found : Bool)
  | readFile (p : Path)
  | render (svg : String) (width : Nat) (height : Nat)
  | writeIco (p : Path) (frames : List PILImage) (sizes : List (Nat × Nat))
deriving Repr, DecidableEq

/-- The input tree, read-only during a run: directory and regular-file
existence, and text contents of files. -/
structure FS where
  isDir : Path → Bool
  isFile : Path → Bool
  readText : Path → String

/-- The two external libraries, as black-box oracles: `svgToImage` is
`resvg_py.svg_to_bytes` composed with `PIL.Image.open` (render SVG text at a
requested size and decode the resulting PNG), `saveIco` is `Image.save`
with `format="ICO"` (encode and write; `.error` models an I/O or encode
failure). -/
structure Ext where
  svgToImage : String → Nat → Nat → Except String PILImage
  saveIco : Path → List PILImage → List (Nat × Nat) → Except String Unit

/-- The spec's error taxonomy: in the script all of these are `Exception`s
caught by the single handler in `main`; the classification records which
raise site produced the error. -/
inductive Err where
  | depMissing (msg : String)
  | fileNotFound (msg : String)
  | renderFailure (msg : String)
  | writeFailure (msg : String)
deriving Repr, DecidableEq

/-- `str(exc)`: the message a caught error prints. -/
def Err.message : Err → String
  | .depMissing m => m
  | .fileNotFound m => m
  | .renderFailure m => m
  | .writeFailure m => m

/-- Whether an error is a `FileNotFoundError` (missing variant directory or
missing icon source). -/
def Err.isNotFound : Err → Bool
  | .fileNotFound _ => true
  | _ => false

/-- Whether an error came from the rasterizer. -/
def Err.isRender : Err → Bool
  | .renderFailure _ => true
  | _ => false

/-- Availability of the two required external packages. -/
structure Deps where
  resvgOk : Bool
  pillowOk : Bool
deriving Repr, DecidableEq

/-- `require_dependency()`: checks `resvg_py` then `PIL`, raising with an
installation hint on the first missing one. -/
def require_dependency (d : Deps) : Except Err Unit :=
  if !d.resvgOk then
    Except.error (Err.depMissing
      "Missing dependency resvg-py. Install with: uv add resvg-py")
  else if !d.pillowOk then
    Except.error (Err.depMissing
      "Missing dependency pillow. Install with: uv add pillow")
  else Except.ok ()

/-- `render_svg_at_size(svg_content, width, height, resvg_py)`: render via the
external rasterizer, decode, and `convert("RGBA")`. -/
def render_svg_at_size (svg : String) (width height : Nat) (ext : Ext) :
    Except String PILImage :=
  (ext.svgToImage svg width height).map convertRGBA

/-- The inner size loop of `build_variant`: render the one source at each
target size in sequence, recording one `render` event per invocation and
stopping at the first failure. -/
def renderAll (svg : String) (sizes : List (Nat × Nat)) (ext : Ext) :
    List Event × Except String (List PILImage) :=
  match sizes with
  | [] => ([], Except.ok [])
  | (w, h) :: rest =>
    match render_svg_at_size svg w h ext with
    | Except.error e => ([Event.render svg w h], Except.error e)
    | Except.ok img =>
      match renderAll svg rest ext with
      | (evs, Except.error e) => (Event.render svg w h :: evs, Except.error e)
      | (evs, Except.ok imgs) =>
        (Event.render svg w h :: evs, Except.ok (img :: imgs))

/-- Processing of one icon name inside `build_variant`: check the source
exists, read it, render all sizes, save the multi-size ICO. Returns the
events that happened and the error that aborted the icon, if any. -/
def buildIcon (variant_input variant_output : Path) (iconName : String)
    (ext : Ext) (fs : FS) : List Event × Option Err :=
  let svg_path := variant_input ++ [iconName ++ ".svg"]
  if fs.isFile svg_path then
    let svg := fs.readText svg_path
    match renderAll svg ICON_SIZES ext with
    | (revs, Except.error e) =>
      (Event.checkFile svg_path true :: Event.readFile svg_path :: revs,
       some (Err.renderFailure e))
    | (revs, Except.ok images) =>
      let ico_path := variant_output ++ [iconName ++ ".ico"]
      match ext.saveIco ico_path images ICON_SIZES with
      | Except.error e =>
        (Event.checkFile svg_path true :: Event.readFile svg_path :: revs,
         some (Err.writeFailure e))
      | Except.ok _ =>
        (Event.checkFile svg_path true :: Event.readFile svg_path ::
           (revs ++ [Event.writeIco ico_path images ICON_SIZES]), none)
  else
    ([Event.checkFile svg_path false],
     some (Err.fileNotFound ("Missing icon source: " ++ pathToString svg_path)))

/-- The icon loop of `build_variant`, stopping at the first failing icon. -/
def buildIcons (names : List String) (variant_input variant_output : Path)
    (ext : Ext) (fs : FS) : List Event × Option Err :=
  match names with
  | [] => ([], none)
  | n :: rest =>
    let b := buildIcon variant_input variant_output n ext fs
    match b.2 with
    | some e => (b.1, some e)
    | none =>
      let r := buildIcons rest variant_input variant_output ext fs
      (b.1 ++ r.1, r.2)

/-- `build_variant(variant, input_root, output_root, ...)`: check the variant
input directory, create the variant output directory, then process every
fixed icon name. -/
def build_variant (variant : String) (input_root output_root : Path)
    (ext : Ext) (fs : FS) : List Event × Option Err :=
  let variant_input := input_root ++ [variant]
  if fs.isDir variant_input then
    let variant_output := output_root ++ [variant]
    match buildIcons ICON_NAMES variant_input variant_output ext fs with
    | (evs, err) =>
      (Event.checkDir variant_input true :: Event.mkdirP variant_output :: evs,
       err)
  else
    ([Event.checkDir (input_root ++ [variant]) false],
     some (Err.fileNotFound
       ("Variant folder not found: " ++ pathToString (input_root ++ [variant]))))

/-- The variant loop of `main`, stopping at the first failing variant. -/
def runVariants (variants : List String) (input_root output_root : Path)
    (ext : Ext) (fs : FS) : List Event × Option Err :=
  match variants with
  | [] => ([], none)
  | v :: rest =>
    let b := build_variant v input_root output_root ext fs
    match b.2 with
    | some e => (b.1, some e)
    | none =>
      let r := runVariants rest input_root output_root ext fs
      (b.1 ++ r.1, r.2)

/-- Python `s.split(",")` on the character list: split at every comma;
the empty text yields one empty field. -/
def splitOnComma : List Char → List (List Char)
  | [] => [[]]
  | c :: rest =>
    if c = ',' then [] :: splitOnComma rest
    else
      match splitOnComma rest with
      | [] => [[c]]
      | g :: gs => (c :: g) :: gs

/-- Python `str.strip()`: drop leading and trailing whitespace. -/
def stripChars (l : List Char) : List Char :=
  ((l.dropWhile Char.isWhitespace).reverse.dropWhile Char.isWhitespace).reverse

/-- `[v.strip() for v in args.variants.split(",") if v.strip()]`. -/
def splitVariants (s : String) : List String :=
  ((splitOnComma s.toList).map (fun cs => String.mk (stripChars cs))).filter
    (fun v => v ≠ "")

/-- The observable outcome of one process run: exit code, the lines printed
to stdout and to stderr, and the side-effect trace. -/
structure RunResult where
  exitCode : Nat
  stdoutLines : List String
  stderrLines : List String
  trace : List Event
deriving Repr, DecidableEq

/-- `main()`: parse the variants list, check it is non-empty, check
dependencies, run every variant, and report. Any error from any stage is
caught, printed as one `Error: <message>` line on stderr, and turns into
exit code 1; on full success the single success line goes to stdout. -/
def main (variantsArg : String) (input_root output_root : Path) (deps : Deps)
    (ext : Ext) (fs : FS) : RunResult :=
  let variants := splitVariants variantsArg
  if variants.isEmpty then
    { exitCode := 1, stdoutLines := [],
      stderrLines := ["No variants specified."], trace := [] }
  else
    match require_dependency deps with
    | Except.error e =>
      { exitCode := 1, stdoutLines := [],
        stderrLines := ["Error: " ++ e.message], trace := [] }
    | Except.ok _ =>
      let r := runVariants variants input_root output_root ext fs
      match r.2 with
      | some e =>
        { exitCode := 1, stdoutLines := [],
          stderrLines := ["Error: " ++ e.message], trace := r.1 }
      | none =>
        { exitCode := 0,
          stdoutLines :=
            ["Generated thumbbar icons in: " ++ pathToString output_root],
          stderrLines := [], trace := r.1 }

/-! ## Disk state

Output-side disk state, as mutated by a trace: `writeIco` sets a file's
content (last write wins, silently overwriting), `mkdirP` creates a
directory; everything else is read-only. -/

/-- The output-side disk: icon file contents and existing directories. -/
@[ext]
structure Disk where
  files : Path → Option (List PILImage × List (Nat × Nat))
  dirs : Path → Bool

/-- Apply one event's mutation to the disk. -/
def applyEvent (d : Disk) (e : Event) : Disk :=
  match e with
  | Event.mkdirP p => { d with dirs := fun q => if q = p then true else d.dirs q }
  | Event.writeIco p frames sizes =>
    { d with files := fun q => if q = p then some (frames, sizes) else d.files q }
  | _ => d

/-- Apply a whole trace, in order. -/
def applyTrace (d : Disk) (t : List Event) : Disk := t.foldl applyEvent d

/-- The last `writeIco` to path `p` in a trace, if any. -/
def writeAt (t : List Event) (p : Path) :
    Option (List PILImage × List (Nat × Nat)) :=
  match t with
  | [] => none
  | e :: rest =>
    match writeAt rest p with
    | some c => some c
    | none =>
      match e with
      | Event.writeIco q frames sizes =>
        if q = p then some (frames, sizes) else none
      | _ => none

/-- The contribution of a single event to the file at `p`. -/
def writeStep (e : Event) (p : Path) :
    Option (List PILImage × List (Nat × Nat)) :=
  match e with
  | Event.writeIco q frames sizes =>
    if q = p then some (frames, sizes) else none
  | _ => none

/-- Whether a trace contains `mkdirP p`. -/
def mkdirIn (t : List Event) (p : Path) : Bool :=
  match t with
  | [] => false
  | Event.mkdirP q :: rest => q = p || mkdirIn rest p
  | _ :: rest => mkdirIn rest p

/-- Whether an event is a file write. -/
def Event.isWrite : Event → Bool
  | Event.writeIco _ _ _ => true
  | _ => false

/-- Whether an event is a write to the given path. -/
def Event.isWriteTo (p : Path) : Event → Bool
  | Event.writeIco q _ _ => q = p
  | _ => false

/-- Whether an event is a file read. -/
def Event.isRead : Event → Bool
  | Event.readFile _ => true
  | _ => false

/-- Whether an event is a rasterizer invocation. -/
def Event.isRender : Event → Bool
  | Event.render _ _ _ => true
  | _ => false

/-- The frames the pipeline derives from one SVG source text: one render per
entry of `sizes`, in order, all from the same `svg`, each converted to RGBA;
`none` if any render fails. -/
def framesFromSource (ext : Ext) (svg : String) (sizes : List (Nat × Nat)) :
    Option (List PILImage) :=
  match sizes with
  | [] => some []
  | (w, h) :: rest =>
    match ext.svgToImage svg w h with
    | Except.error _ => none
    | Except.ok img =>
      match framesFromSource ext svg rest with
      | none => none
      | some imgs => some (convertRGBA img :: imgs)

/-! ## Concrete fixtures

A fully populated input tree and always-succeeding external libraries, used
to evaluate the pipeline on concrete inputs. -/

/-- A filesystem on which every directory and file exists. -/
def exFS : FS :=
  { isDir := fun _ => true, isFile := fun _ => true,
    readText := fun _ => "<svg/>" }

/-- External libraries that always succeed; the rasterizer honours the
requested dimensions and reports a pre-conversion mode of `"P"`. -/
def exExt : Ext :=
  { svgToImage := fun _ w h => Except.ok ⟨w, h, "P"⟩,
    saveIco := fun _ _ _ => Except.ok () }

/-- The image `exExt` produces for each render request. -/
def exOracle : String → Nat → Nat → PILImage := fun _ w h => ⟨w, h, "P"⟩

/-- A filesystem where everything exists except the directory
`in/light`, used for the missing-variant scenarios. -/
def exFS6 : FS :=
  { isDir := fun p => decide (p ≠ ["in", "light"]),
    isFile := fun _ => true, readText := fun _ => "<svg/>" }

/-- A filesystem whose directories all exist but which has no files at all,
used for the missing-source scenarios. -/
def exFSNoFiles : FS :=
  { isDir := fun _ => true, isFile := fun _ => false,
    readText := fun _ => "" }

/-- An initially empty disk. -/
def emptyDisk : Disk := { files := fun _ => none, dirs := fun _ => false }

/-! ## Expected traces of a fully successful run

When every render and every save succeeds, the trace of the pipeline is a
fixed shape; these definitions spell it out so theorems can name it. The
`oracle` argument is the function the (deterministic, succeeding) external
rasterizer computes. -/

/-- The source path of one icon: `<input_root>/<variant>/<name>.svg`. -/
def svgPathOf (input_root : Path) (v n : String) : Path :=
  (input_root ++ [v]) ++ [n ++ ".svg"]

/-- The output path of one icon: `<output_root>/<variant>/<name>.ico`. -/
def icoPathOf (output_root : Path) (v n : String) : Path :=
  (output_root ++ [v]) ++ [n ++ ".ico"]

/-- The frames the pipeline packs for one source: one render per target
size, in the fixed order, all from the same SVG text, each converted to
RGBA. -/
def framesFor (oracle : String → Nat → Nat → PILImage) (svg : String) :
    List PILImage :=
  ICON_SIZES.map (fun wh => convertRGBA (oracle svg wh.1 wh.2))

/-- The one write event a fully successful icon build emits. -/
def expectedWrite (input_root output_root : Path)
    (oracle : String → Nat → Nat → PILImage) (fs : FS) (v n : String) :
    Event :=
  Event.writeIco (icoPathOf output_root v n)
    (framesFor oracle (fs.readText (svgPathOf input_root v n))) ICON_SIZES

/-- The events of one fully successful icon build, in order: existence
check, source read, four renders, one write. -/
def iconTraceOk (input_root output_root : Path)
    (oracle : String → Nat → Nat → PILImage) (fs : FS) (v n : String) :
    List Event :=
  Event.checkFile (svgPathOf input_root v n) true ::
    Event.readFile (svgPathOf input_root v n) ::
      ((ICON_SIZES.map fun wh =>
          Event.render (fs.readText (svgPathOf input_root v n)) wh.1 wh.2) ++
        [expectedWrite input_root output_root oracle fs v n])

/-- The events of one fully successful variant build. -/
def variantTraceOk (input_root output_root : Path)
    (oracle : String → Nat → Nat → PILImage) (fs : FS) (v : String) :
    List Event :=
  Event.checkDir (input_root ++ [v]) true ::
    Event.mkdirP (output_root ++ [v]) ::
      ICON_NAMES.flatMap (iconTraceOk input_root output_root oracle fs v)

/-- `orOpt a b` is `a` when `a` is `some`, else `b`. -/
def orOpt {α : Type _} (a b : Option α) : Option α :=
  match a with
  | some x => some x
  | none => b

/-! ## The fully successful path -/

theorem renderAll_ok (ext : Ext) (oracle : String → Nat → Nat → PILImage)
    (hrender : ∀ svg w h, ext.svgToImage svg w h = Except.ok (oracle svg w h))
    (sizes : List (Nat × Nat)) (svg : String) :
    renderAll svg sizes ext =
      (sizes.map (fun wh => Event.render svg wh.1 wh.2),
       Except.ok (sizes.map (fun wh => convertRGBA (oracle svg wh.1 wh.2)))) := by
  induction sizes with
  | nil => rfl
  | cons wh rest ih =>
    obtain ⟨w, h⟩ := wh
    simp [renderAll, render_svg_at_size, hrender, Except.map, ih]

theorem buildIcon_ok (input_root output_root : Path) (v n : String)
    (ext : Ext) (fs : FS) (oracle : String → Nat → Nat → PILImage)
    (hrender : ∀ svg w h, ext.svgToImage svg w h = Except.ok (oracle svg w h))
    (hsave : ∀ p imgs sizes, ext.saveIco p imgs sizes = Except.ok ())
    (hfile : fs.isFile (svgPathOf input_root v n) = true) :
    buildIcon (input_root ++ [v]) (output_root ++ [v]) n ext fs =
      (iconTraceOk input_root output_root oracle fs v n, none) := by
  have h1 : (input_root ++ [v]) ++ [n ++ ".svg"] = svgPathOf input_root v n := rfl
  simp [buildIcon, h1, hfile, renderAll_ok ext oracle hrender, hsave,
    iconTraceOk, expectedWrite, framesFor, icoPathOf]

theorem buildIcons_ok (input_root output_root : Path) (v : String)
    (ext : Ext) (fs : FS) (oracle : String → Nat → Nat → PILImage)
    (hrender : ∀ svg w h, ext.svgToImage svg w h = Except.ok (oracle svg w h))
    (hsave : ∀ p imgs sizes, ext.saveIco p imgs sizes = Except.ok ()) :
    ∀ names : List String,
      (∀ n ∈ names, fs.isFile (svgPathOf input_root v n) = true) →
      buildIcons names (input_root ++ [v]) (output_root ++ [v]) ext fs =
        (names.flatMap (iconTraceOk input_root output_root oracle fs v), none) := by
  intro names
  induction names with
  | nil => intro _; rfl
  | cons n rest ih =>
    intro hf
    have h1 := buildIcon_ok input_root output_root v n ext fs oracle hrender
      hsave (hf n (by simp))
    have h2 := ih (fun m hm => hf m (by simp [hm]))
    simp [buildIcons, h1, h2]

theorem build_variant_ok (input_root output_root : Path) (v : String)
    (ext : Ext) (fs : FS) (oracle : String → Nat → Nat → PILImage)
    (hrender : ∀ svg w h, ext.svgToImage svg w h = Except.ok (oracle svg w h))
    (hsave : ∀ p imgs sizes, ext.saveIco p imgs sizes = Except.ok ())
    (hdir : fs.isDir (input_root ++ [v]) = true)
    (hfiles : ∀ n ∈ ICON_NAMES, fs.isFile (svgPathOf input_root v n) = true) :
    build_variant v input_root output_root ext fs =
      (variantTraceOk input_root output_root oracle fs v, none) := by
  have h1 := buildIcons_ok input_root output_root v ext fs oracle hrender hsave
    ICON_NAMES hfiles
  simp [build_variant, hdir, h1, variantTraceOk]

theorem runVariants_ok (input_root output_root : Path)
    (ext : Ext) (fs : FS) (oracle : String → Nat → Nat → PILImage)
    (hrender : ∀ svg w h, ext.svgToImage svg w h = Except.ok (oracle svg w h))
    (hsave : ∀ p imgs sizes, ext.saveIco p imgs sizes = Except.ok ()) :
    ∀ variants : List String,
      (∀ v ∈ variants, fs.isDir (input_root ++ [v]) = true) →
      (∀ v ∈ variants, ∀ n ∈ ICON_NAMES,
        fs.isFile (svgPathOf input_root v n) = true) →
      runVariants variants input_root output_root ext fs =
        (variants.flatMap (variantTraceOk input_root output_root oracle fs),
         none) := by
  intro variants
  induction variants with
  | nil => intro _ _; rfl
  | cons v rest ih =>
    intro hdir hfiles
    have h1 := build_variant_ok input_root output_root v ext fs oracle hrender
      hsave (hdir v (by simp)) (hfiles v (by simp))
    have h2 := ih (fun u hu => hdir u (by simp [hu]))
      (fun u hu => hfiles u (by simp [hu]))
    simp [runVariants, h1, h2]

theorem main_ok (variantsArg : String) (input_root output_root : Path)
    (deps : Deps) (ext : Ext) (fs : FS)
    (oracle : String → Nat → Nat → PILImage)
    (hne : splitVariants variantsArg ≠ [])
    (hdeps : require_dependency deps = Except.ok ())
    (hdir : ∀ v ∈ splitVariants variantsArg,
      fs.isDir (input_root ++ [v]) = true)
    (hfiles : ∀ v ∈ splitVariants variantsArg, ∀ n ∈ ICON_NAMES,
      fs.isFile (svgPathOf input_root v n) = true)
    (hrender : ∀ svg w h, ext.svgToImage svg w h = Except.ok (oracle svg w h))
    (hsave : ∀ p imgs sizes, ext.saveIco p imgs sizes = Except.ok ()) :
    main variantsArg input_root output_root deps ext fs =
      { exitCode := 0,
        stdoutLines :=
          ["Generated thumbbar icons in: " ++ pathToString output_root],
        stderrLines := [],
        trace := (splitVariants variantsArg).flatMap
          (variantTraceOk input_root output_root oracle fs) } := by
  have h1 := runVariants_ok input_root output_root ext fs oracle hrender hsave
    (splitVariants variantsArg) hdir hfiles
  have h2 : (splitVariants variantsArg).isEmpty = false := by
    cases h : splitVariants variantsArg with
    | nil => exact absurd h hne
    | cons a l => rfl
  simp [main, h1, h2, hdeps]

/-! ## Disk-state lemmas -/

theorem applyTrace_append (d : Disk) (a b : List Event) :
    applyTrace d (a ++ b) = applyTrace (applyTrace d a) b := by
  simp [applyTrace, List.foldl_append]

theorem applyTrace_files :
    ∀ (t : List Event) (d : Disk) (p : Path),
      (applyTrace d t).files p = orOpt (writeAt t p) (d.files p) := by
  intro t
  induction t with
  | nil => intro d p; rfl
  | cons e rest ih =>
    intro d p
    have h1 : applyTrace d (e :: rest) = applyTrace (applyEvent d e) rest := rfl
    rw [h1, ih]
    cases hw : writeAt rest p with
    | some c => simp [writeAt, orOpt, hw]
    | none =>
      cases e with
      | writeIco q frames sizes =>
        by_cases hq : q = p
        · subst hq
          simp [writeAt, orOpt, hw, applyEvent]
        · simp [writeAt, orOpt, hw, applyEvent, hq, Ne.symm hq]
      | mkdirP q => simp [writeAt, orOpt, hw, applyEvent]
      | checkDir q b => simp [writeAt, orOpt, hw, applyEvent]
      | checkFile q b => simp [writeAt, orOpt, hw, applyEvent]
      | readFile q => simp [writeAt, orOpt, hw, applyEvent]
      | render s w h => simp [writeAt, orOpt, hw, applyEvent]

theorem applyTrace_dirs :
    ∀ (t : List Event) (d : Disk) (p : Path),
      (applyTrace d t).dirs p = (mkdirIn t p || d.dirs p) := by
  intro t
  induction t with
  | nil => intro d p; rfl
  | cons e rest ih =>
    intro d p
    have h1 : applyTrace d (e :: rest) = applyTrace (applyEvent d e) rest := rfl
    rw [h1, ih]
    cases e with
    | mkdirP q =>
      by_cases hq : q = p
      · subst hq
        simp [mkdirIn, applyEvent]
      · simp [mkdirIn, applyEvent, hq, Ne.symm hq]
    | writeIco q frames sizes => simp [mkdirIn, applyEvent]
    | checkDir q b => simp [mkdirIn, applyEvent]
    | checkFile q b => simp [mkdirIn, applyEvent]
    | readFile q => simp [mkdirIn, applyEvent]
    | render s w h => simp [mkdirIn, applyEvent]

theorem applyTrace_replay (d : Disk) (t : List Event) :
    applyTrace (applyTrace d t) t = applyTrace d t := by
  have hf : (applyTrace (applyTrace d t) t).files = (applyTrace d t).files := by
    funext p
    rw [applyTrace_files, applyTrace_files]
    cases writeAt t p <;> simp [orOpt]
  have hd : (applyTrace (applyTrace d t) t).dirs = (applyTrace d t).dirs := by
    funext p
    rw [applyTrace_dirs, applyTrace_dirs]
    cases mkdirIn t p <;> simp
  exact Disk.ext hf hd

theorem writeAt_cons (e : Event) (t : List Event) (p : Path) :
    writeAt (e :: t) p = orOpt (writeAt t p) (writeStep e p) := by
  cases hw : writeAt t p <;> cases e <;> simp [writeAt, writeStep, orOpt, hw]

theorem writeAt_append :
    ∀ (a b : List Event) (p : Path),
      writeAt (a ++ b) p = orOpt (writeAt b p) (writeAt a p) := by
  intro a
  induction a with
  | nil =>
    intro b p
    cases hw : writeAt b p <;> simp [writeAt, orOpt, hw]
  | cons e rest ih =>
    intro b p
    rw [List.cons_append, writeAt_cons, writeAt_cons, ih]
    cases hw : writeAt b p <;> cases hr : writeAt rest p <;> simp [orOpt]

theorem writeAt_eq_none :
    ∀ (t : List Event) (p : Path),
      (∀ frames sizes, Event.writeIco p frames sizes ∉ t) →
      writeAt t p = none := by
  intro t
  induction t with
  | nil => intro p _; rfl
  | cons e rest ih =>
    intro p hne
    have h1 : writeAt rest p = none :=
      ih p (fun frames sizes hm => hne frames sizes (by simp [hm]))
    rw [writeAt_cons, h1]
    cases e with
    | writeIco q frames sizes =>
      have hq : ¬ q = p := by
        intro hqp
        subst hqp
        exact hne frames sizes (by simp)
      simp [orOpt, writeStep, hq]
    | mkdirP q => simp [orOpt, writeStep]
    | checkDir q b => simp [orOpt, writeStep]
    | checkFile q b => simp [orOpt, writeStep]
    | readFile q => simp [orOpt, writeStep]
    | render s w h => simp [orOpt, writeStep]

theorem writeAt_some_mem :
    ∀ (t : List Event) (p : Path) (c : List PILImage × List (Nat × Nat)),
      writeAt t p = some c → Event.writeIco p c.1 c.2 ∈ t := by
  intro t
  induction t with
  | nil => intro p c h; simp [writeAt] at h
  | cons e rest ih =>
    intro p c h
    rw [writeAt_cons] at h
    cases hw : writeAt rest p with
    | some c2 =>
      rw [hw] at h
      simp [orOpt] at h
      subst h
      exact List.mem_cons_of_mem e (ih p c2 hw)
    | none =>
      rw [hw] at h
      cases e with
      | writeIco q frames sizes =>
        by_cases hq : q = p
        · subst hq
          simp [orOpt, writeStep] at h
          rw [← h]
          simp
        · simp [orOpt, writeStep, hq] at h
      | mkdirP q => simp [orOpt, writeStep] at h
      | checkDir q b => simp [orOpt, writeStep] at h
      | checkFile q b => simp [orOpt, writeStep] at h
      | readFile q => simp [orOpt, writeStep] at h
      | render s w h2 => simp [orOpt, writeStep] at h

/-! ## Write events of a successful trace -/

theorem filter_isWrite_variantTraceOk (input_root output_root : Path)
    (oracle : String → Nat → Nat → PILImage) (fs : FS) (v : String) :
    (variantTraceOk input_root output_root oracle fs v).filter Event.isWrite =
      ICON_NAMES.map (expectedWrite input_root output_root oracle fs v) := by
  simp [variantTraceOk, iconTraceOk, ICON_NAMES, ICON_SIZES, Event.isWrite,
    expectedWrite]

theorem filter_isWrite_bind (input_root output_root : Path)
    (oracle : String → Nat → Nat → PILImage) (fs : FS) :
    ∀ variants : List String,
      ((variants.flatMap (variantTraceOk input_root output_root oracle fs)).filter
          Event.isWrite) =
        variants.flatMap
          (fun v => ICON_NAMES.map
            (expectedWrite input_root output_root oracle fs v)) := by
  intro variants
  induction variants with
  | nil => rfl
  | cons v rest ih =>
    rw [List.flatMap_cons, List.flatMap_cons, List.filter_append,
      filter_isWrite_variantTraceOk, ih]

theorem filter_writeTo_variantTraceOk_self (input_root output_root : Path)
    (oracle : String → Nat → Nat → PILImage) (fs : FS) (v n : String)
    (hn : n ∈ ICON_NAMES) :
    (variantTraceOk input_root output_root oracle fs v).filter
        (Event.isWriteTo (icoPathOf output_root v n)) =
      [expectedWrite input_root output_root oracle fs v n] := by
  have hn2 : n = "previous" ∨ n = "play" ∨ n = "pause" ∨ n = "next" := by
    simpa [ICON_NAMES] using hn
  rcases hn2 with rfl | rfl | rfl | rfl <;>
    simp [variantTraceOk, iconTraceOk, ICON_NAMES, ICON_SIZES,
      Event.isWriteTo, expectedWrite, icoPathOf, List.append_assoc]

theorem filter_writeTo_variantTraceOk_ne (input_root output_root : Path)
    (oracle : String → Nat → Nat → PILImage) (fs : FS) (v2 v n : String)
    (hne : v2 ≠ v) :
    (variantTraceOk input_root output_root oracle fs v2).filter
        (Event.isWriteTo (icoPathOf output_root v n)) = [] := by
  simp [variantTraceOk, iconTraceOk, ICON_NAMES, ICON_SIZES,
    Event.isWriteTo, expectedWrite, icoPathOf, List.append_assoc, hne]

theorem filter_writeTo_bind_notmem (input_root output_root : Path)
    (oracle : String → Nat → Nat → PILImage) (fs : FS) (v n : String) :
    ∀ vs : List String, v ∉ vs →
      ((vs.flatMap (variantTraceOk input_root output_root oracle fs)).filter
        (Event.isWriteTo (icoPathOf output_root v n))) = [] := by
  intro vs
  induction vs with
  | nil => intro _; rfl
  | cons v2 rest ih =>
    intro hnm
    have h1 : v2 ≠ v := fun h => hnm (by simp [h])
    have h2 : v ∉ rest := fun h => hnm (by simp [h])
    rw [List.flatMap_cons, List.filter_append,
      filter_writeTo_variantTraceOk_ne input_root output_root oracle fs v2 v n
        h1,
      ih h2]
    rfl

theorem filter_writeTo_bind (input_root output_root : Path)
    (oracle : String → Nat → Nat → PILImage) (fs : FS) :
    ∀ variants : List String, variants.Nodup →
      ∀ v ∈ variants, ∀ n ∈ ICON_NAMES,
        ((variants.flatMap
            (variantTraceOk input_root output_root oracle fs)).filter
          (Event.isWriteTo (icoPathOf output_root v n))) =
          [expectedWrite input_root output_root oracle fs v n] := by
  intro variants
  induction variants with
  | nil => intro _ v hv; simp at hv
  | cons v2 rest ih =>
    intro hnd v hv n hn
    rw [List.flatMap_cons, List.filter_append]
    rcases List.mem_cons.mp hv with h | h
    · subst h
      rw [filter_writeTo_variantTraceOk_self input_root output_root oracle fs
        v n hn]
      rw [filter_writeTo_bind_notmem input_root output_root oracle fs v n rest
        (List.nodup_cons.mp hnd).1]
      simp
    · have hv2ne : v2 ≠ v := by
        rintro rfl
        exact (List.nodup_cons.mp hnd).1 h
      rw [filter_writeTo_variantTraceOk_ne input_root output_root oracle fs v2
          v n hv2ne,
        ih (List.nodup_cons.mp hnd).2 v h n hn]
      rfl

theorem framesFor_dims (oracle : String → Nat → Nat → PILImage)
    (hdims : ∀ svg w h, (oracle svg w h).width = w ∧
      (oracle svg w h).height = h)
    (svg : String) :
    (framesFor oracle svg).map (fun img => (img.width, img.height)) =
      [(16, 16), (20, 20), (24, 24), (32, 32)] := by
  obtain ⟨ha, hb⟩ := hdims svg 16 16
  obtain ⟨hc, hd⟩ := hdims svg 20 20
  obtain ⟨he, hf⟩ := hdims svg 24 24
  obtain ⟨hg, hh⟩ := hdims svg 32 32
  simp [framesFor, ICON_SIZES, convertRGBA, ha, hb, hc, hd, he, hf, hg, hh]

/-! ## Shape of writes on arbitrary runs -/

theorem renderAll_events_isRender (ext : Ext) :
    ∀ (sizes : List (Nat × Nat)) (svg : String) (e : Event),
      e ∈ (renderAll svg sizes ext).1 → e.isRender = true := by
  intro sizes
  induction sizes with
  | nil => intro svg e he; simp [renderAll] at he
  | cons wh rest ih =>
    intro svg e he
    obtain ⟨w, h⟩ := wh
    rw [renderAll] at he
    cases hr : render_svg_at_size svg w h ext with
    | error msg =>
      rw [hr] at he
      simp at he
      subst he
      rfl
    | ok img =>
      rw [hr] at he
      cases hrec : renderAll svg rest ext with
      | mk evs res =>
        rw [hrec] at he
        cases res with
        | error msg =>
          simp at he
          rcases he with he | he
          · subst he; rfl
          · exact ih svg e (by rw [hrec]; exact he)
        | ok imgs =>
          simp at he
          rcases he with he | he
          · subst he; rfl
          · exact ih svg e (by rw [hrec]; exact he)

theorem renderAll_frames (ext : Ext) :
    ∀ (sizes : List (Nat × Nat)) (svg : String) (evs : List Event)
      (imgs : List PILImage),
      renderAll svg sizes ext = (evs, Except.ok imgs) →
      framesFromSource ext svg sizes = some imgs := by
  intro sizes
  induction sizes with
  | nil =>
    intro svg evs imgs h
    rw [renderAll] at h
    cases h
    rfl
  | cons wh rest ih =>
    intro svg evs imgs h
    obtain ⟨w, hh⟩ := wh
    rw [renderAll] at h
    cases hr : render_svg_at_size svg w hh ext with
    | error msg => rw [hr] at h; cases h
    | ok img =>
      rw [hr] at h
      cases hrec : renderAll svg rest ext with
      | mk evs2 res =>
        rw [hrec] at h
        cases res with
        | error msg => cases h
        | ok imgs2 =>
          cases h
          have hraw : ∃ raw, ext.svgToImage svg w hh = Except.ok raw ∧
              img = convertRGBA raw := by
            rw [render_svg_at_size] at hr
            cases hx : ext.svgToImage svg w hh with
            | error msg => rw [hx] at hr; cases hr
            | ok raw =>
              rw [hx] at hr
              simp [Except.map] at hr
              exact ⟨raw, rfl, hr.symm⟩
          obtain ⟨raw, hxw, himg⟩ := hraw
          rw [framesFromSource, hxw, ih svg evs2 imgs2 hrec, himg]

theorem framesFromSource_length (ext : Ext) :
    ∀ (sizes : List (Nat × Nat)) (svg : String) (imgs : List PILImage),
      framesFromSource ext svg sizes = some imgs →
      imgs.length = sizes.length := by
  intro sizes
  induction sizes with
  | nil =>
    intro svg imgs h
    rw [framesFromSource] at h
    cases h
    rfl
  | cons wh rest ih =>
    intro svg imgs h
    obtain ⟨w, hh⟩ := wh
    rw [framesFromSource] at h
    cases hx : ext.svgToImage svg w hh with
    | error msg => rw [hx] at h; cases h
    | ok raw =>
      rw [hx] at h
      cases hrec : framesFromSource ext svg rest with
      | none => rw [hrec] at h; cases h
      | some imgs2 =>
        rw [hrec] at h
        cases h
        simp [ih svg imgs2 hrec]

theorem buildIcon_write_shape (vi vo : Path) (n : String) (ext : Ext)
    (fs : FS) :
    ∀ e ∈ (buildIcon vi vo n ext fs).1, e.isWrite = true →
      ∃ frames, e = Event.writeIco (vo ++ [n ++ ".ico"]) frames ICON_SIZES ∧
        framesFromSource ext (fs.readText (vi ++ [n ++ ".svg"])) ICON_SIZES =
          some frames := by
  intro e he hw
  simp only [buildIcon] at he
  by_cases hf : fs.isFile (vi ++ [n ++ ".svg"])
  · rw [if_pos hf] at he
    cases hra : renderAll (fs.readText (vi ++ [n ++ ".svg"])) ICON_SIZES ext
      with
    | mk revs res =>
      rw [hra] at he
      cases res with
      | error msg =>
        simp at he
        rcases he with he | he | he
        · subst he; cases hw
        · subst he; cases hw
        · have hren := renderAll_events_isRender ext ICON_SIZES
            (fs.readText (vi ++ [n ++ ".svg"])) e (by rw [hra]; exact he)
          cases e <;> simp [Event.isWrite] at hw <;>
            simp [Event.isRender] at hren
      | ok images =>
        simp only [] at he
        cases hs : ext.saveIco (vo ++ [n ++ ".ico"]) images ICON_SIZES with
        | error msg =>
          rw [hs] at he
          simp at he
          rcases he with he | he | he
          · subst he; cases hw
          · subst he; cases hw
          · have hren := renderAll_events_isRender ext ICON_SIZES
              (fs.readText (vi ++ [n ++ ".svg"])) e (by rw [hra]; exact he)
            cases e <;> simp [Event.isWrite] at hw <;>
              simp [Event.isRender] at hren
        | ok u =>
          rw [hs] at he
          simp at he
          rcases he with he | he | he | he
          · subst he; cases hw
          · subst he; cases hw
          · have hren := renderAll_events_isRender ext ICON_SIZES
              (fs.readText (vi ++ [n ++ ".svg"])) e (by rw [hra]; exact he)
            cases e <;> simp [Event.isWrite] at hw <;>
              simp [Event.isRender] at hren
          · subst he
            exact ⟨images, rfl,
              renderAll_frames ext ICON_SIZES _ revs images hra⟩
  · rw [if_neg hf] at he
    simp at he
    subst he
    cases hw

theorem isWrite_eq_false_of_isRender (e : Event) (h : e.isRender = true) :
    e.isWrite = false := by
  cases e <;> first | rfl | simp [Event.isRender] at h

theorem buildIcons_write_shape (vi vo : Path) (ext : Ext) (fs : FS) :
    ∀ names : List String, ∀ e ∈ (buildIcons names vi vo ext fs).1,
      e.isWrite = true →
      ∃ n ∈ names, ∃ frames,
        e = Event.writeIco (vo ++ [n ++ ".ico"]) frames ICON_SIZES ∧
        framesFromSource ext (fs.readText (vi ++ [n ++ ".svg"])) ICON_SIZES =
          some frames := by
  intro names
  induction names with
  | nil => intro e he; simp [buildIcons] at he
  | cons n rest ih =>
    intro e he hw
    rw [buildIcons] at he
    cases hb2 : (buildIcon vi vo n ext fs).2 with
    | some er =>
      rw [hb2] at he
      simp only [] at he
      obtain ⟨frames, heq, hfr⟩ :=
        buildIcon_write_shape vi vo n ext fs e he hw
      exact ⟨n, by simp, frames, heq, hfr⟩
    | none =>
      rw [hb2] at he
      simp only [] at he
      rcases List.mem_append.mp he with h | h
      · obtain ⟨frames, heq, hfr⟩ :=
          buildIcon_write_shape vi vo n ext fs e h hw
        exact ⟨n, by simp, frames, heq, hfr⟩
      · obtain ⟨m, hm, frames, heq, hfr⟩ := ih e h hw
        exact ⟨m, by simp [hm], frames, heq, hfr⟩

theorem build_variant_write_shape (v : String) (input_root output_root : Path)
    (ext : Ext) (fs : FS) :
    ∀ e ∈ (build_variant v input_root output_root ext fs).1,
      e.isWrite = true →
      ∃ n ∈ ICON_NAMES, ∃ frames,
        e = Event.writeIco (icoPathOf output_root v n) frames ICON_SIZES ∧
        framesFromSource ext (fs.readText (svgPathOf input_root v n))
          ICON_SIZES = some frames := by
  intro e he hw
  simp only [build_variant] at he
  by_cases hd : fs.isDir (input_root ++ [v])
  · rw [if_pos hd] at he
    simp only [] at he
    rcases List.mem_cons.mp he with h | h
    · subst h; cases hw
    rcases List.mem_cons.mp h with h2 | h2
    · subst h2; cases hw
    obtain ⟨n, hn, frames, heq, hfr⟩ := buildIcons_write_shape
      (input_root ++ [v]) (output_root ++ [v]) ext fs ICON_NAMES e h2 hw
    exact ⟨n, hn, frames, heq, hfr⟩
  · rw [if_neg hd] at he
    simp at he
    subst he
    cases hw

theorem runVariants_write_shape (input_root output_root : Path)
    (ext : Ext) (fs : FS) :
    ∀ vs : List String, ∀ e ∈ (runVariants vs input_root output_root ext fs).1,
      e.isWrite = true →
      ∃ v ∈ vs, ∃ n ∈ ICON_NAMES, ∃ frames,
        e = Event.writeIco (icoPathOf output_root v n) frames ICON_SIZES ∧
        framesFromSource ext (fs.readText (svgPathOf input_root v n))
          ICON_SIZES = some frames := by
  intro vs
  induction vs with
  | nil => intro e he; simp [runVariants] at he
  | cons v rest ih =>
    intro e he hw
    rw [runVariants] at he
    cases hb2 : (build_variant v input_root output_root ext fs).2 with
    | some er =>
      rw [hb2] at he
      simp only [] at he
      obtain ⟨n, hn, frames, heq, hfr⟩ :=
        build_variant_write_shape v input_root output_root ext fs e he hw
      exact ⟨v, by simp, n, hn, frames, heq, hfr⟩
    | none =>
      rw [hb2] at he
      simp only [] at he
      rcases List.mem_append.mp he with h | h
      · obtain ⟨n, hn, frames, heq, hfr⟩ :=
          build_variant_write_shape v input_root output_root ext fs e h hw
        exact ⟨v, by simp, n, hn, frames, heq, hfr⟩
      · obtain ⟨u, hu, n, hn, frames, heq, hfr⟩ := ih e h hw
        exact ⟨u, by simp [hu], n, hn, frames, heq, hfr⟩

theorem buildIcon_abort (vi vo : Path) (n : String) (ext : Ext) (fs : FS)
    (t : List Event) (er : Err)
    (hb : buildIcon vi vo n ext fs = (t, some er))
    (her : er.isNotFound = true ∨ er.isRender = true) :
    ∀ ev ∈ t, ev.isWrite = false := by
  intro ev hev
  simp only [buildIcon] at hb
  by_cases hf : fs.isFile (vi ++ [n ++ ".svg"])
  · rw [if_pos hf] at hb
    cases hra : renderAll (fs.readText (vi ++ [n ++ ".svg"])) ICON_SIZES ext
      with
    | mk revs res =>
      rw [hra] at hb
      cases res with
      | error msg =>
        simp only [] at hb
        have ht : t = Event.checkFile (vi ++ [n ++ ".svg"]) true ::
            Event.readFile (vi ++ [n ++ ".svg"]) :: revs := by
          have := congrArg Prod.fst hb
          exact this.symm
        subst ht
        rcases List.mem_cons.mp hev with h | h
        · subst h; rfl
        rcases List.mem_cons.mp h with h2 | h2
        · subst h2; rfl
        exact isWrite_eq_false_of_isRender ev
          (renderAll_events_isRender ext ICON_SIZES _ ev (by rw [hra]; exact h2))
      | ok images =>
        simp only [] at hb
        cases hs : ext.saveIco (vo ++ [n ++ ".ico"]) images ICON_SIZES with
        | error msg =>
          rw [hs] at hb
          have her2 : er = Err.writeFailure msg := by
            have := congrArg Prod.snd hb
            simp at this
            exact this.symm
          subst her2
          simp [Err.isNotFound, Err.isRender] at her
        | ok u =>
          rw [hs] at hb
          have := congrArg Prod.snd hb
          simp at this
  · rw [if_neg hf] at hb
    have ht : t = [Event.checkFile (vi ++ [n ++ ".svg"]) false] := by
      have := congrArg Prod.fst hb
      exact this.symm
    subst ht
    rcases List.mem_cons.mp hev with h | h
    · subst h; rfl
    · simp at h

theorem runVariants_append_ok (input_root output_root : Path)
    (ext : Ext) (fs : FS) :
    ∀ vs1 vs2 : List String,
      (runVariants vs1 input_root output_root ext fs).2 = none →
      runVariants (vs1 ++ vs2) input_root output_root ext fs =
        ((runVariants vs1 input_root output_root ext fs).1 ++
          (runVariants vs2 input_root output_root ext fs).1,
         (runVariants vs2 input_root output_root ext fs).2) := by
  intro vs1
  induction vs1 with
  | nil => intro vs2 _; simp [runVariants]
  | cons v rest ih =>
    intro vs2 hok
    rw [List.cons_append]
    cases hb2 : (build_variant v input_root output_root ext fs).2 with
    | some er =>
      exfalso
      simp [runVariants, hb2] at hok
    | none =>
      have hok2 : (runVariants rest input_root output_root ext fs).2 = none :=
        by simpa [runVariants, hb2] using hok
      simp [runVariants, hb2, ih vs2 hok2]

theorem main_err (variantsArg : String) (input_root output_root : Path)
    (deps : Deps) (ext : Ext) (fs : FS) (e : Err)
    (hne : splitVariants variantsArg ≠ [])
    (hdeps : require_dependency deps = Except.ok ())
    (hrun : (runVariants (splitVariants variantsArg) input_root output_root
      ext fs).2 = some e) :
    main variantsArg input_root output_root deps ext fs =
      { exitCode := 1, stdoutLines := [],
        stderrLines := ["Error: " ++ e.message],
        trace := (runVariants (splitVariants variantsArg) input_root
          output_root ext fs).1 } := by
  have h2 : (splitVariants variantsArg).isEmpty = false := by
    cases h : splitVariants variantsArg with
    | nil => exact absurd h hne
    | cons a l => rfl
  simp [main, h2, hdeps, hrun]

/-! ## The claims -/

/-- C5: whenever the `--variants` argument parses to an empty list after
splitting on commas and trimming whitespace, the run exits with code 1,
prints the diagnostic, and its trace is empty — in particular it contains
no file read and no file write. -/
theorem c5_empty_variants_no_io (variantsArg : String)
    (input_root output_root : Path) (deps : Deps) (ext : Ext) (fs : FS)
    (hempty : splitVariants variantsArg = []) :
    main variantsArg input_root output_root deps ext fs =
      { exitCode := 1, stdoutLines := [],
        stderrLines := ["No variants specified."], trace := [] } ∧
    ((main variantsArg input_root output_root deps ext fs).trace.filter
      Event.isRead = []) ∧
    ((main variantsArg input_root output_root deps ext fs).trace.filter
      Event.isWrite = []) := by
  have h : main variantsArg input_root output_root deps ext fs =
      { exitCode := 1, stdoutLines := [],
        stderrLines := ["No variants specified."], trace := [] } := by
    simp [main, hempty]
  exact ⟨h, by rw [h]; rfl, by rw [h]; rfl⟩

/-- Witness for C5 at the concrete argument `" , ,"` (only commas and
whitespace). -/
theorem c5_empty_variants_no_io_witness :
    main " , ," ["in"] ["out"] ⟨true, true⟩ exExt exFS =
      { exitCode := 1, stdoutLines := [],
        stderrLines := ["No variants specified."], trace := [] } ∧
    ((main " , ," ["in"] ["out"] ⟨true, true⟩ exExt exFS).trace.filter
      Event.isRead = []) ∧
    ((main " , ," ["in"] ["out"] ⟨true, true⟩ exExt exFS).trace.filter
      Event.isWrite = []) :=
  c5_empty_variants_no_io " , ," ["in"] ["out"] ⟨true, true⟩ exExt exFS
    (by decide)

/-- C2: the run exits 0 exactly when the variants list is non-empty, both
dependencies import, and every variant builds without error; on success the
single success line naming the output root goes to stdout and nothing to
stderr; on failure stdout is empty and exactly one line goes to stderr. -/
theorem c2_exit_code_and_streams (variantsArg : String)
    (input_root output_root : Path) (deps : Deps) (ext : Ext) (fs : FS) :
    ((main variantsArg input_root output_root deps ext fs).exitCode = 0 ∨
      (main variantsArg input_root output_root deps ext fs).exitCode = 1) ∧
    ((main variantsArg input_root output_root deps ext fs).exitCode = 0 ↔
      (splitVariants variantsArg ≠ [] ∧
       require_dependency deps = Except.ok () ∧
       (runVariants (splitVariants variantsArg) input_root output_root ext
         fs).2 = none)) ∧
    ((main variantsArg input_root output_root deps ext fs).exitCode = 0 →
      (main variantsArg input_root output_root deps ext fs).stdoutLines =
        ["Generated thumbbar icons in: " ++ pathToString output_root] ∧
      (main variantsArg input_root output_root deps ext fs).stderrLines =
        []) ∧
    ((main variantsArg input_root output_root deps ext fs).exitCode = 1 →
      (main variantsArg input_root output_root deps ext fs).stdoutLines =
        [] ∧
      (main variantsArg input_root output_root deps ext fs).stderrLines.length
        = 1) := by
  by_cases hv : (splitVariants variantsArg).isEmpty
  · have hnil : splitVariants variantsArg = [] := by
      simpa [List.isEmpty_iff] using hv
    simp [main, hv, hnil]
  · have hne : splitVariants variantsArg ≠ [] := by
      simpa [List.isEmpty_iff] using hv
    cases hdep : require_dependency deps with
    | error e => simp [main, hv, hdep, hne]
    | ok u =>
      cases u
      cases hr : (runVariants (splitVariants variantsArg) input_root
        output_root ext fs).2 with
      | some e => simp [main, hv, hdep, hr, hne]
      | none => simp [main, hv, hdep, hr, hne]

/-- C3 counterexample: the empty-variants failure exits 1 but its single
stderr line is `No variants specified.`, which is not of the form
`Error: <message>`. -/
theorem c3_config_error_line_counterexample :
    (main "" ["in"] ["out"] ⟨true, true⟩ exExt exFS).exitCode = 1 ∧
    (main "" ["in"] ["out"] ⟨true, true⟩ exExt exFS).stderrLines =
      ["No variants specified."] ∧
    ¬ ∃ m : String, "No variants specified." = "Error: " ++ m := by
  refine ⟨by decide, by decide, ?_⟩
  rintro ⟨m, hm⟩
  have h2 := congrArg String.toList hm
  simp [String.toList] at h2

/-- C3 (amended): every failing run prints exactly one diagnostic line to
stderr and exits with code 1 (nothing goes to stdout), and the line is
determined by the failing stage: the empty-variants configuration check
prints exactly `No variants specified.`, while every other stage failure —
a missing dependency, or any error raised by a variant build (missing
directory or file, render failure, write failure) — prints exactly
`Error: <message>` with that stage's error message. -/
theorem c3_single_diagnostic_line (variantsArg : String)
    (input_root output_root : Path) (deps : Deps) (ext : Ext) (fs : FS)
    (hfail :
      (main variantsArg input_root output_root deps ext fs).exitCode = 1) :
    (main variantsArg input_root output_root deps ext fs).stdoutLines = [] ∧
    ∃ line,
      (main variantsArg input_root output_root deps ext fs).stderrLines =
        [line] ∧
      ((splitVariants variantsArg = [] ∧
        line = "No variants specified.") ∨
       (splitVariants variantsArg ≠ [] ∧
        ((∃ e, require_dependency deps = Except.error e ∧
           line = "Error: " ++ e.message) ∨
         (require_dependency deps = Except.ok () ∧
          ∃ e, (runVariants (splitVariants variantsArg) input_root
              output_root ext fs).2 = some e ∧
            line = "Error: " ++ e.message)))) := by
  by_cases hv : (splitVariants variantsArg).isEmpty
  · have hnil : splitVariants variantsArg = [] := by
      simpa [List.isEmpty_iff] using hv
    have h : main variantsArg input_root output_root deps ext fs =
        { exitCode := 1, stdoutLines := [],
          stderrLines := ["No variants specified."], trace := [] } := by
      simp [main, hv]
    rw [h]
    exact ⟨rfl, "No variants specified.", rfl, Or.inl ⟨hnil, rfl⟩⟩
  · have hne : splitVariants variantsArg ≠ [] := by
      simpa [List.isEmpty_iff] using hv
    cases hdep : require_dependency deps with
    | error e =>
      have h : main variantsArg input_root output_root deps ext fs =
          { exitCode := 1, stdoutLines := [],
            stderrLines := ["Error: " ++ e.message], trace := [] } := by
        simp [main, hv, hdep]
      rw [h]
      exact ⟨rfl, "Error: " ++ e.message, rfl,
        Or.inr ⟨hne, Or.inl ⟨e, rfl, rfl⟩⟩⟩
    | ok u =>
      cases u
      cases hr : (runVariants (splitVariants variantsArg) input_root
        output_root ext fs).2 with
      | some e =>
        have h : main variantsArg input_root output_root deps ext fs =
            { exitCode := 1, stdoutLines := [],
              stderrLines := ["Error: " ++ e.message],
              trace := (runVariants (splitVariants variantsArg) input_root
                output_root ext fs).1 } := by
          simp [main, hv, hdep, hr]
        rw [h]
        exact ⟨rfl, "Error: " ++ e.message, rfl,
          Or.inr ⟨hne, Or.inr ⟨rfl, e, rfl, rfl⟩⟩⟩
      | none =>
        exfalso
        have h : (main variantsArg input_root output_root deps ext
            fs).exitCode = 0 := by
          simp [main, hv, hdep, hr]
        rw [h] at hfail
        cases hfail

/-- Witness for C3 (amended) at a concrete non-config failing run: the
missing `light` variant directory, whose diagnostic must take the
`Error: <message>` form. -/
theorem c3_single_diagnostic_line_witness :
    (main "dark,light" ["in"] ["out"] ⟨true, true⟩ exExt
      exFS6).stdoutLines = [] ∧
    ∃ line,
      (main "dark,light" ["in"] ["out"] ⟨true, true⟩ exExt
        exFS6).stderrLines = [line] ∧
      ((splitVariants "dark,light" = [] ∧
        line = "No variants specified.") ∨
       (splitVariants "dark,light" ≠ [] ∧
        ((∃ e, require_dependency ⟨true, true⟩ = Except.error e ∧
           line = "Error: " ++ e.message) ∨
         (require_dependency ⟨true, true⟩ = Except.ok () ∧
          ∃ e, (runVariants (splitVariants "dark,light") ["in"] ["out"]
              exExt exFS6).2 = some e ∧
            line = "Error: " ++ e.message)))) :=
  c3_single_diagnostic_line "dark,light" ["in"] ["out"] ⟨true, true⟩ exExt
    exFS6 (by decide)

/-- C7: the pipeline is a pure function of its inputs (the filesystem and
the two external oracles, assumed deterministic), so a second run on the
same unchanged inputs is identical to the first; replaying the run's trace
over the disk it already produced leaves the disk unchanged — every write
silently overwrites the first run's file with byte-for-byte the same
content, and every mkdir finds the directory already there. -/
theorem c7_rerun_byte_identical (variantsArg : String)
    (input_root output_root : Path) (deps : Deps) (ext : Ext) (fs : FS)
    (d : Disk) :
    main variantsArg input_root output_root deps ext fs =
      main variantsArg input_root output_root deps ext fs ∧
    applyTrace
        (applyTrace d
          (main variantsArg input_root output_root deps ext fs).trace)
        (main variantsArg input_root output_root deps ext fs).trace =
      applyTrace d
        (main variantsArg input_root output_root deps ext fs).trace :=
  ⟨rfl, applyTrace_replay d _⟩

/-- C8: whenever the external rasterizer honours the requested dimensions,
a successful `render_svg_at_size` call returns an image in RGBA mode (an
alpha channel is present) whose dimensions are exactly the requested
`(width, height)`. -/
theorem c8_render_rgba_exact_size (ext : Ext) (svg : String) (w h : Nat)
    (img : PILImage)
    (hdims : ∀ s a b i, ext.svgToImage s a b = Except.ok i →
      i.width = a ∧ i.height = b)
    (hok : render_svg_at_size svg w h ext = Except.ok img) :
    img.mode = "RGBA" ∧ img.width = w ∧ img.height = h := by
  rw [render_svg_at_size] at hok
  cases hx : ext.svgToImage svg w h with
  | error msg => rw [hx] at hok; cases hok
  | ok raw =>
    rw [hx] at hok
    simp [Except.map] at hok
    obtain ⟨hw2, hh2⟩ := hdims svg w h raw hx
    rw [← hok]
    exact ⟨rfl, hw2, hh2⟩

/-- Witness for C8 at a concrete renderer and size. -/
theorem c8_render_rgba_exact_size_witness :
    (PILImage.mk 16 16 "RGBA").mode = "RGBA" ∧
    (PILImage.mk 16 16 "RGBA").width = 16 ∧
    (PILImage.mk 16 16 "RGBA").height = 16 :=
  c8_render_rgba_exact_size exExt "<svg/>" 16 16 (PILImage.mk 16 16 "RGBA")
    (fun s a b i hi => by
      simp [exExt] at hi
      simp [← hi])
    rfl

/-- C9: for a processed icon whose source exists and whose renders and save
succeed, the icon's build trace reads the source file exactly once and
invokes the rasterizer exactly once per (source, size) pair — four times,
once per fixed target size, in the fixed order. -/
theorem c9_read_once_render_per_size (input_root output_root : Path)
    (v n : String) (ext : Ext) (fs : FS)
    (oracle : String → Nat → Nat → PILImage)
    (hrender : ∀ svg w h, ext.svgToImage svg w h = Except.ok (oracle svg w h))
    (hsave : ∀ p imgs sizes, ext.saveIco p imgs sizes = Except.ok ())
    (hfile : fs.isFile (svgPathOf input_root v n) = true) :
    ((buildIcon (input_root ++ [v]) (output_root ++ [v]) n ext fs).1.filter
      Event.isRead) = [Event.readFile (svgPathOf input_root v n)] ∧
    ((buildIcon (input_root ++ [v]) (output_root ++ [v]) n ext fs).1.filter
      Event.isRender) =
      ICON_SIZES.map (fun wh =>
        Event.render (fs.readText (svgPathOf input_root v n)) wh.1 wh.2) ∧
    ((buildIcon (input_root ++ [v]) (output_root ++ [v]) n ext fs).1.filter
      Event.isRender).length = 4 := by
  have h := buildIcon_ok input_root output_root v n ext fs oracle hrender
    hsave hfile
  rw [h]
  refine ⟨?_, ?_, ?_⟩ <;>
    simp [iconTraceOk, expectedWrite, ICON_SIZES, Event.isRead,
      Event.isRender, Event.isWrite]

/-- Witness for C9 at a concrete icon build. -/
theorem c9_read_once_render_per_size_witness :
    ((buildIcon (["in"] ++ ["dark"]) (["out"] ++ ["dark"]) "play" exExt
      exFS).1.filter Event.isRead) =
      [Event.readFile (svgPathOf ["in"] "dark" "play")] ∧
    ((buildIcon (["in"] ++ ["dark"]) (["out"] ++ ["dark"]) "play" exExt
      exFS).1.filter Event.isRender) =
      ICON_SIZES.map (fun wh =>
        Event.render (exFS.readText (svgPathOf ["in"] "dark" "play")) wh.1
          wh.2) ∧
    ((buildIcon (["in"] ++ ["dark"]) (["out"] ++ ["dark"]) "play" exExt
      exFS).1.filter Event.isRender).length = 4 :=
  c9_read_once_render_per_size ["in"] ["out"] "dark" "play" exExt exFS
    exOracle (fun _ _ _ => rfl) (fun _ _ _ => rfl) rfl

/-- C10: once the variant input directory is found, the variant output
directory is created (second trace event) before any source file existence
check; in particular, when the first source file `previous.svg` is missing,
the run of that variant fails with a NotFound error and writes no icon
file, yet it has already created the output variant directory on disk. -/
theorem c10_mkdir_before_source_checks (input_root output_root : Path)
    (v : String) (ext : Ext) (fs : FS) (d : Disk)
    (hdir : fs.isDir (input_root ++ [v]) = true) :
    (∃ rest, (build_variant v input_root output_root ext fs).1 =
      Event.checkDir (input_root ++ [v]) true ::
        Event.mkdirP (output_root ++ [v]) :: rest) ∧
    (fs.isFile (svgPathOf input_root v "previous") = false →
      build_variant v input_root output_root ext fs =
        ([Event.checkDir (input_root ++ [v]) true,
          Event.mkdirP (output_root ++ [v]),
          Event.checkFile (svgPathOf input_root v "previous") false],
         some (Err.fileNotFound ("Missing icon source: " ++
           pathToString (svgPathOf input_root v "previous")))) ∧
      (applyTrace d (build_variant v input_root output_root ext fs).1).dirs
        (output_root ++ [v]) = true ∧
      (∀ p, writeAt (build_variant v input_root output_root ext fs).1 p =
        none)) := by
  constructor
  · refine ⟨(buildIcons ICON_NAMES (input_root ++ [v]) (output_root ++ [v])
      ext fs).1, ?_⟩
    simp [build_variant, hdir]
  · intro hfile
    have hb : build_variant v input_root output_root ext fs =
        ([Event.checkDir (input_root ++ [v]) true,
          Event.mkdirP (output_root ++ [v]),
          Event.checkFile (svgPathOf input_root v "previous") false],
         some (Err.fileNotFound ("Missing icon source: " ++
           pathToString (svgPathOf input_root v "previous")))) := by
      have hfile2 : fs.isFile (input_root ++ [v, "previous.svg"]) = false :=
        by simpa [svgPathOf] using hfile
      simp [build_variant, hdir, buildIcons, buildIcon, ICON_NAMES, hfile2,
        svgPathOf]
    refine ⟨hb, ?_, ?_⟩
    · rw [hb, applyTrace_dirs]
      simp [mkdirIn]
    · intro p
      rw [hb]
      simp [writeAt]

/-- Witness for C10 at a concrete filesystem with directories but no
files. -/
theorem c10_mkdir_before_source_checks_witness :
    (∃ rest, (build_variant "dark" ["in"] ["out"] exExt exFSNoFiles).1 =
      Event.checkDir (["in"] ++ ["dark"]) true ::
        Event.mkdirP (["out"] ++ ["dark"]) :: rest) ∧
    (exFSNoFiles.isFile (svgPathOf ["in"] "dark" "previous") = false →
      build_variant "dark" ["in"] ["out"] exExt exFSNoFiles =
        ([Event.checkDir (["in"] ++ ["dark"]) true,
          Event.mkdirP (["out"] ++ ["dark"]),
          Event.checkFile (svgPathOf ["in"] "dark" "previous") false],
         some (Err.fileNotFound ("Missing icon source: " ++
           pathToString (svgPathOf ["in"] "dark" "previous")))) ∧
      (applyTrace emptyDisk
        (build_variant "dark" ["in"] ["out"] exExt exFSNoFiles).1).dirs
        (["out"] ++ ["dark"]) = true ∧
      (∀ p, writeAt (build_variant "dark" ["in"] ["out"] exExt
        exFSNoFiles).1 p = none)) :=
  c10_mkdir_before_source_checks ["in"] ["out"] "dark" exExt exFSNoFiles
    emptyDisk rfl

/-- C4: every write event of any run is a complete bundle — the file
`<output>/<variant>/<name>.ico` for some requested variant and fixed icon
name, carrying exactly one frame per target size (so exactly 4), in the
fixed size-list order, all rendered from the single source text read for
that icon; and an icon whose source is missing or whose render fails
contributes no write event at all — the icon aborts before its write. -/
theorem c4_no_partial_bundles (variantsArg : String)
    (input_root output_root : Path) (deps : Deps) (ext : Ext) (fs : FS) :
    (∀ e ∈ (main variantsArg input_root output_root deps ext fs).trace,
      e.isWrite = true →
      ∃ v ∈ splitVariants variantsArg, ∃ n ∈ ICON_NAMES, ∃ frames,
        e = Event.writeIco (icoPathOf output_root v n) frames ICON_SIZES ∧
        framesFromSource ext (fs.readText (svgPathOf input_root v n))
          ICON_SIZES = some frames ∧
        frames.length = ICON_SIZES.length) ∧
    (∀ (vi vo : Path) (n : String) (t : List Event) (er : Err),
      buildIcon vi vo n ext fs = (t, some er) →
      er.isNotFound = true ∨ er.isRender = true →
      ∀ ev ∈ t, ev.isWrite = false) := by
  constructor
  · have htr : (main variantsArg input_root output_root deps ext fs).trace =
        [] ∨
        (main variantsArg input_root output_root deps ext fs).trace =
        (runVariants (splitVariants variantsArg) input_root output_root ext
          fs).1 := by
      by_cases hv : (splitVariants variantsArg).isEmpty
      · left; simp [main, hv]
      · cases hdep : require_dependency deps with
        | error e => left; simp [main, hv, hdep]
        | ok u =>
          cases u
          right
          cases hr : (runVariants (splitVariants variantsArg) input_root
            output_root ext fs).2 <;> simp [main, hv, hdep, hr]
    intro e he hw
    rcases htr with htr | htr
    · rw [htr] at he; simp at he
    · rw [htr] at he
      obtain ⟨v, hv, n, hn, frames, heq, hfr⟩ := runVariants_write_shape
        input_root output_root ext fs (splitVariants variantsArg) e he hw
      exact ⟨v, hv, n, hn, frames, heq, hfr,
        framesFromSource_length ext ICON_SIZES _ frames hfr⟩
  · intro vi vo n t er hb her
    exact buildIcon_abort vi vo n ext fs t er hb her

/-- C1: on a valid input tree (variant directories and all four sources
present for every requested, distinct variant), with both dependencies
available and every render and save succeeding (the rasterizer honouring
the requested dimensions), the run exits 0; its writes are exactly one per
(variant, icon name) pair, in order; each per-pair output file receives
exactly one write, whose frame list carries the sizes
(16,16),(20,20),(24,24),(32,32) in that ascending order. -/
theorem c1_valid_tree_exact_outputs (variantsArg : String)
    (input_root output_root : Path) (deps : Deps) (ext : Ext) (fs : FS)
    (oracle : String → Nat → Nat → PILImage)
    (hne : splitVariants variantsArg ≠ [])
    (hnd : (splitVariants variantsArg).Nodup)
    (hdeps : require_dependency deps = Except.ok ())
    (hdir : ∀ v ∈ splitVariants variantsArg,
      fs.isDir (input_root ++ [v]) = true)
    (hfiles : ∀ v ∈ splitVariants variantsArg, ∀ n ∈ ICON_NAMES,
      fs.isFile (svgPathOf input_root v n) = true)
    (hrender : ∀ svg w h, ext.svgToImage svg w h = Except.ok (oracle svg w h))
    (hdims : ∀ svg w h, (oracle svg w h).width = w ∧
      (oracle svg w h).height = h)
    (hsave : ∀ p imgs sizes, ext.saveIco p imgs sizes = Except.ok ()) :
    (main variantsArg input_root output_root deps ext fs).exitCode = 0 ∧
    ((main variantsArg input_root output_root deps ext fs).trace.filter
      Event.isWrite =
      (splitVariants variantsArg).flatMap (fun v => ICON_NAMES.map
        (expectedWrite input_root output_root oracle fs v))) ∧
    (∀ v ∈ splitVariants variantsArg, ∀ n ∈ ICON_NAMES,
      ((main variantsArg input_root output_root deps ext fs).trace.filter
        (Event.isWriteTo (icoPathOf output_root v n)) =
        [expectedWrite input_root output_root oracle fs v n]) ∧
      ((framesFor oracle (fs.readText (svgPathOf input_root v n))).map
        (fun img => (img.width, img.height)) =
        [(16, 16), (20, 20), (24, 24), (32, 32)])) := by
  have h := main_ok variantsArg input_root output_root deps ext fs oracle
    hne hdeps hdir hfiles hrender hsave
  rw [h]
  refine ⟨rfl, ?_, ?_⟩
  · exact filter_isWrite_bind input_root output_root oracle fs
      (splitVariants variantsArg)
  · intro v hv n hn
    exact ⟨filter_writeTo_bind input_root output_root oracle fs
        (splitVariants variantsArg) hnd v hv n hn,
      framesFor_dims oracle hdims (fs.readText (svgPathOf input_root v n))⟩

/-- Witness for C1 at the concrete run `--variants dark,light` on a fully
populated input tree with always-succeeding external libraries. -/
theorem c1_valid_tree_exact_outputs_witness :
    (main "dark,light" ["in"] ["out"] ⟨true, true⟩ exExt exFS).exitCode = 0 ∧
    ((main "dark,light" ["in"] ["out"] ⟨true, true⟩ exExt exFS).trace.filter
      Event.isWrite =
      (splitVariants "dark,light").flatMap (fun v => ICON_NAMES.map
        (expectedWrite ["in"] ["out"] exOracle exFS v))) ∧
    (∀ v ∈ splitVariants "dark,light", ∀ n ∈ ICON_NAMES,
      ((main "dark,light" ["in"] ["out"] ⟨true, true⟩ exExt
        exFS).trace.filter
        (Event.isWriteTo (icoPathOf ["out"] v n)) =
        [expectedWrite ["in"] ["out"] exOracle exFS v n]) ∧
      ((framesFor exOracle (exFS.readText (svgPathOf ["in"] v n))).map
        (fun img => (img.width, img.height)) =
        [(16, 16), (20, 20), (24, 24), (32, 32)])) :=
  c1_valid_tree_exact_outputs "dark,light" ["in"] ["out"] ⟨true, true⟩
    exExt exFS exOracle (by decide) (by decide) rfl
    (fun _ _ => rfl) (fun _ _ _ _ => rfl) (fun _ _ _ => rfl)
    (fun _ _ _ => ⟨rfl, rfl⟩) (fun _ _ _ => rfl)

theorem icoPathOf_inj_variant (output_root : Path) (v1 n1 v n : String)
    (h : icoPathOf output_root v1 n1 = icoPathOf output_root v n) :
    v1 = v := by
  simp [icoPathOf, List.append_assoc] at h
  exact h.1

/-- C6: when every variant before `v` builds fully and `v` fails with a
NotFound error (missing variant directory or missing source file), the run
exits 1 reporting that error, its trace is exactly the earlier variants'
events followed by `v`'s events up to the failure — so no remaining icon of
`v` is written and no later variant is processed — and every output file
the earlier variants wrote is still on disk with the content they wrote. -/
theorem c6_first_missing_stops_run (variantsArg : String)
    (input_root output_root : Path) (deps : Deps) (ext : Ext) (fs : FS)
    (d : Disk) (vs1 vs2 : List String) (v : String) (e : Err)
    (hdeps : require_dependency deps = Except.ok ())
    (hsplit : splitVariants variantsArg = vs1 ++ v :: vs2)
    (h1 : (runVariants vs1 input_root output_root ext fs).2 = none)
    (hv : (build_variant v input_root output_root ext fs).2 = some e)
    (hnf : e.isNotFound = true)
    (hmem : v ∉ vs1) :
    (main variantsArg input_root output_root deps ext fs).exitCode = 1 ∧
    (main variantsArg input_root output_root deps ext fs).stderrLines =
      ["Error: " ++ e.message] ∧
    (main variantsArg input_root output_root deps ext fs).trace =
      (runVariants vs1 input_root output_root ext fs).1 ++
        (build_variant v input_root output_root ext fs).1 ∧
    (∀ p c,
      writeAt (runVariants vs1 input_root output_root ext fs).1 p = some c →
      (applyTrace d
        (main variantsArg input_root output_root deps ext fs).trace).files p =
        some c) := by
  have hrv : runVariants (vs1 ++ v :: vs2) input_root output_root ext fs =
      ((runVariants vs1 input_root output_root ext fs).1 ++
        (build_variant v input_root output_root ext fs).1, some e) := by
    rw [runVariants_append_ok input_root output_root ext fs vs1 (v :: vs2) h1]
    have hcons : runVariants (v :: vs2) input_root output_root ext fs =
        ((build_variant v input_root output_root ext fs).1, some e) := by
      simp [runVariants, hv]
    rw [hcons]
  have hne : splitVariants variantsArg ≠ [] := by
    rw [hsplit]; simp
  have hrun2 : (runVariants (splitVariants variantsArg) input_root
      output_root ext fs).2 = some e := by
    rw [hsplit, hrv]
  have hm := main_err variantsArg input_root output_root deps ext fs e hne
    hdeps hrun2
  have htr : (runVariants (splitVariants variantsArg) input_root output_root
      ext fs).1 =
      (runVariants vs1 input_root output_root ext fs).1 ++
        (build_variant v input_root output_root ext fs).1 := by
    rw [hsplit, hrv]
  refine ⟨by rw [hm], by rw [hm], ?_, ?_⟩
  · rw [hm]; exact htr
  · intro p c hwp
    have hmem1 := writeAt_some_mem _ p c hwp
    obtain ⟨v1, hv1, n1, hn1, frames1, heq1, hfr1⟩ :=
      runVariants_write_shape input_root output_root ext fs vs1
        (Event.writeIco p c.1 c.2) hmem1 rfl
    injection heq1 with hp hc1 hc2
    have hnone : writeAt
        (build_variant v input_root output_root ext fs).1 p = none := by
      apply writeAt_eq_none
      intro frames sizes hin
      obtain ⟨n2, hn2, frames2, heq2, hfr2⟩ :=
        build_variant_write_shape v input_root output_root ext fs
          (Event.writeIco p frames sizes) hin rfl
      injection heq2 with hp2 hf2 hs2
      have hv1v : v1 = v :=
        icoPathOf_inj_variant output_root v1 n1 v n2 (by rw [← hp, hp2])
      exact hmem (hv1v ▸ hv1)
    have hgoal : (applyTrace d
        ((runVariants vs1 input_root output_root ext fs).1 ++
          (build_variant v input_root output_root ext fs).1)).files p =
        some c := by
      rw [applyTrace_append, applyTrace_files, hnone]
      rw [applyTrace_files, hwp]
      rfl
    rw [hm]
    show (applyTrace d ((runVariants (splitVariants variantsArg) input_root
      output_root ext fs).1)).files p = some c
    rw [htr]
    exact hgoal

/-- Witness for C6 at the concrete scenario of the spec: `dark` complete,
`light` absent. -/
theorem c6_first_missing_stops_run_witness :
    (main "dark,light" ["in"] ["out"] ⟨true, true⟩ exExt exFS6).exitCode =
      1 ∧
    (main "dark,light" ["in"] ["out"] ⟨true, true⟩ exExt
      exFS6).stderrLines =
      ["Error: " ++
        (Err.fileNotFound "Variant folder not found: in/light").message] ∧
    (main "dark,light" ["in"] ["out"] ⟨true, true⟩ exExt exFS6).trace =
      (runVariants ["dark"] ["in"] ["out"] exExt exFS6).1 ++
        (build_variant "light" ["in"] ["out"] exExt exFS6).1 ∧
    (∀ p c,
      writeAt (runVariants ["dark"] ["in"] ["out"] exExt exFS6).1 p =
        some c →
      (applyTrace emptyDisk
        (main "dark,light" ["in"] ["out"] ⟨true, true⟩ exExt
          exFS6).trace).files p = some c) :=
  c6_first_missing_stops_run "dark,light" ["in"] ["out"] ⟨true, true⟩
    exExt exFS6 emptyDisk ["dark"] [] "light"
    (Err.fileNotFound "Variant folder not found: in/light")
    rfl (by decide) (by decide) (by decide) (by decide) (by decide)

end BuildThumbbarIcons
